import Mathlib

/-!
Verification of the rust-jsx markup parser.

The development shallowly embeds the crate's data model and its structural
parser `parse` (src/src/lib.rs).  The markup tokenizer lives in
`src/tokenizer.rs`, which is declared by `mod tokenizer;` but absent from the
sources; its types and its `parse_html_token` entry point are modelled from
the specification (spec.md §2, §4.1) and are marked as such in their doc
comments.  Rust `proc_macro2` tokens are modelled as a plain inductive tree;
identifier and literal payloads become `String`, spans are dropped (they play
no role in the parser's logic or in the crate's own equality comparisons).

The Rust `loop` in `parse` is embedded as a fuel-indexed structural recursion;
`parse` hands it `input.length + 1` units of fuel, which is shown sufficient
(`parseLoop_fuel_irrelevant`) because every successful `parse_html_token` call
consumes at least one raw token.  The `assert_eq!` on tag names aborts the
process in Rust; the embedding gives that outcome its own constructor,
`ParseOutcome.panicked`, distinct from every `ParseError`.
-/

namespace RustJsx

/-- Delimiter kinds of a `proc_macro2::Group` (spec §3: parenthesis, brace,
bracket, none). -/
inductive Delimiter where
  | parenthesis
  | brace
  | bracket
  | none
deriving Repr, BEq

/-- A `proc_macro2::TokenTree`: Identifier(name), Literal(raw value),
Punctuation(character, adjacency flag), Group(delimiter, inner tokens)
(spec §3).  Spans are not modelled. -/
inductive TokenTree where
  | ident (name : String)
  | literal (value : String)
  | punct (ch : Char) (joint : Bool)
  | group (delim : Delimiter) (stream : List TokenTree)
deriving Repr

/-- `SnaxAttribute` from src/src/lib.rs: the single `Simple { name, value }`
variant. -/
inductive SnaxAttribute where
  | simple (name : String) (value : TokenTree)
deriving Repr

/-- `SnaxSelfClosingTag` from src/src/lib.rs. -/
structure SnaxSelfClosingTag where
  name : String
  attributes : List SnaxAttribute
deriving Repr

mutual

/-- `SnaxItem` from src/src/lib.rs: Tag, SelfClosingTag, or Content. -/
inductive SnaxItem where
  | tag (t : SnaxTag)
  | selfClosingTag (t : SnaxSelfClosingTag)
  | content (t : TokenTree)

/-- `SnaxTag` from src/src/lib.rs: name, attributes, children. -/
inductive SnaxTag where
  | mk (name : String) (attributes : List SnaxAttribute) (children : List SnaxItem)

end

/-- Modelled from the spec: the tokenizer's `HtmlOpenToken` (src/tokenizer.rs
is missing from the sources; lib.rs uses its `name` and `attributes` fields). -/
structure HtmlOpenToken where
  name : String
  attributes : List SnaxAttribute
deriving Repr

/-- Modelled from the spec: the tokenizer's close-tag markup token (lib.rs
uses its `name` field). -/
structure HtmlCloseToken where
  name : String
deriving Repr

/-- Modelled from the spec: the tokenizer's self-closing-tag markup token
(lib.rs uses its `name` and `attributes` fields). -/
structure HtmlSelfClosingToken where
  name : String
  attributes : List SnaxAttribute
deriving Repr

/-- Modelled from the spec: the tokenizer's content markup token (lib.rs uses
its `content` field). -/
structure HtmlTextishToken where
  content : TokenTree
deriving Repr

/-- Modelled from the spec: `HtmlToken`, the markup-token union
OpenTag / CloseTag / SelfClosingTag / Content (spec §2, §3; variant names as
matched in lib.rs, with Content called `Textish`). -/
inductive HtmlToken where
  | openTag (t : HtmlOpenToken)
  | closeTag (t : HtmlCloseToken)
  | selfClosingTag (t : HtmlSelfClosingToken)
  | textish (t : HtmlTextishToken)
deriving Repr

/-- Modelled from the spec: `TokenizeError`, with exactly the two variants the
`From<TokenizeError> for ParseError` impl in lib.rs matches on. -/
inductive TokenizeError where
  | unexpectedEnd
  | unexpectedToken (t : TokenTree)
deriving Repr

/-- Is this token the `<` punctuation that starts a tag construct (spec §4.1)? -/
def isTagStart : TokenTree → Bool
  | .punct c _ => c = '<'
  | _ => false

/-- Modelled from the spec: the attribute loop of the tokenizer (spec §4.1).
Repeatedly parses `Identifier '=' Value` where Value is a Literal or a
brace-delimited Group kept opaque, accumulating attributes in source order,
and terminates on `>` (returns `false` for not-self-closing) or on `/`
followed by `>` (returns `true`).  A wrong concrete token fails with
`UnexpectedToken`, exhaustion mid-construct with `UnexpectedEnd`. -/
def parseAttributes : List TokenTree → List SnaxAttribute →
    Except TokenizeError ((List SnaxAttribute × Bool) × List TokenTree)
  | [], _ => .error .unexpectedEnd
  | .punct '>' _ :: rest, acc => .ok ((acc, false), rest)
  | .punct '/' _ :: rest, acc =>
    match rest with
    | .punct '>' _ :: rest2 => .ok ((acc, true), rest2)
    | t :: _ => .error (.unexpectedToken t)
    | [] => .error .unexpectedEnd
  | .ident n :: rest, acc =>
    match rest with
    | .punct '=' _ :: v :: rest2 =>
      match v with
      | .literal s => parseAttributes rest2 (acc ++ [.simple n (.literal s)])
      | .group .brace ts => parseAttributes rest2 (acc ++ [.simple n (.group .brace ts)])
      | t => .error (.unexpectedToken t)
    | .punct '=' _ :: [] => .error .unexpectedEnd
    | t :: _ => .error (.unexpectedToken t)
    | [] => .error .unexpectedEnd
  | t :: _, _ => .error (.unexpectedToken t)

/-- Modelled from the spec: the body of a tag construct, after the leading `<`
has been consumed (spec §4.1).  `/` leads to `Identifier` then `>` and a
CloseTag; an `Identifier` leads to the attribute loop and an OpenTag or
SelfClosingTag; anything else is the offending token of an `UnexpectedToken`. -/
def parseTagBody : List TokenTree → Except TokenizeError (HtmlToken × List TokenTree)
  | [] => .error .unexpectedEnd
  | .punct '/' _ :: rest =>
    match rest with
    | .ident name :: .punct '>' _ :: rest2 => .ok (.closeTag ⟨name⟩, rest2)
    | .ident _ :: t :: _ => .error (.unexpectedToken t)
    | .ident _ :: [] => .error .unexpectedEnd
    | t :: _ => .error (.unexpectedToken t)
    | [] => .error .unexpectedEnd
  | .ident name :: rest =>
    match parseAttributes rest [] with
    | .error e => .error e
    | .ok ((attrs, true), rest2) => .ok (.selfClosingTag ⟨name, attrs⟩, rest2)
    | .ok ((attrs, false), rest2) => .ok (.openTag ⟨name, attrs⟩, rest2)
  | t :: _ => .error (.unexpectedToken t)

/-- Modelled from the spec: `parse_html_token` (spec §4.1).  Emits exactly one
markup token per invocation, advancing the cursor: a leading `<` punctuation
starts a tag construct; any other token — a Literal, a bare Identifier, or a
Group of any delimiter — is consumed whole as a single Content token, never
recursing into a group and never merging adjacent tokens.  An empty stream
surfaces as `UnexpectedEnd` (the only end-of-stream channel the
`From<TokenizeError>` impl and the `?` in `parse` admit). -/
def parse_html_token (input : List TokenTree) :
    Except TokenizeError (HtmlToken × List TokenTree) :=
  match input with
  | [] => .error .unexpectedEnd
  | t :: rest => if isTagStart t then parseTagBody rest else .ok (.textish ⟨t⟩, rest)

/-- `ParseError` from src/src/lib.rs. -/
inductive ParseError where
  | unexpectedEnd
  | unexpectedItem (t : HtmlToken)
  | unexpectedToken (t : TokenTree)
deriving Repr

/-- The `From<TokenizeError> for ParseError` impl from src/src/lib.rs. -/
def ParseError.ofTokenize : TokenizeError → ParseError
  | .unexpectedEnd => .unexpectedEnd
  | .unexpectedToken t => .unexpectedToken t

/-- The `expect_end!` macro from src/src/lib.rs: draws the next raw token
from the iterator; a remaining token is an `UnexpectedToken` error. -/
def expect_end : List TokenTree → Except ParseError Unit
  | [] => .ok ()
  | t :: _ => .error (.unexpectedToken t)

/-- The private `OpenToken` wrapper enum from src/src/lib.rs. -/
inductive OpenToken where
  | tag (t : HtmlOpenToken)

/-- The outcome of a `parse` call.  Rust's `assert_eq!` on tag names aborts
the process rather than returning; that behaviour is the distinguished
`panicked` outcome, separate from every `ParseError`. -/
inductive ParseOutcome where
  | ok (item : SnaxItem)
  | error (e : ParseError)
  | panicked

/-- The `loop` of `parse` from src/src/lib.rs, with the iterator cursor made
explicit as the list of raw tokens not yet consumed and the Rust `loop`
embedded as fuel-indexed recursion (every iteration consumes at least one raw
token, so `input.length + 1` units of fuel always suffice; see
`parseLoop_fuel_irrelevant`).  Branches mirror the source: OpenTag pushes a
frame; CloseTag pops (empty stack: `UnexpectedItem`), `assert_eq!` compares
names (mismatch: panic), then the sealed Tag is the root (requiring `expect_end`)
or is appended to the parent frame; SelfClosingTag and Content are roots or
children the same way. -/
def parseLoop : Nat → List TokenTree → List (OpenToken × List SnaxItem) → ParseOutcome
  | 0, _, _ => .error .unexpectedEnd
  | fuel + 1, input, tag_stack =>
    match parse_html_token input with
    | .error e => .error (ParseError.ofTokenize e)
    | .ok (.openTag opening_tag, rest) =>
      parseLoop fuel rest ((OpenToken.tag opening_tag, []) :: tag_stack)
    | .ok (.closeTag closing_tag, rest) =>
      match tag_stack with
      | [] => .error (.unexpectedItem (.closeTag closing_tag))
      | (OpenToken.tag opening_tag, children) :: stack' =>
        if opening_tag.name = closing_tag.name then
          match stack' with
          | [] =>
            match expect_end rest with
            | .error e => .error e
            | .ok _ =>
              .ok (.tag (.mk opening_tag.name opening_tag.attributes children))
          | (parent, parent_children) :: stack2 =>
            parseLoop fuel rest
              ((parent, parent_children ++
                [SnaxItem.tag (.mk opening_tag.name opening_tag.attributes children)]) :: stack2)
        else .panicked
    | .ok (.selfClosingTag sct, rest) =>
      match tag_stack with
      | [] =>
        match expect_end rest with
        | .error e => .error e
        | .ok _ => .ok (.selfClosingTag ⟨sct.name, sct.attributes⟩)
      | (parent, parent_children) :: stack' =>
        parseLoop fuel rest
          ((parent, parent_children ++
            [SnaxItem.selfClosingTag ⟨sct.name, sct.attributes⟩]) :: stack')
    | .ok (.textish tx, rest) =>
      match tag_stack with
      | [] =>
        match expect_end rest with
        | .error e => .error e
        | .ok _ => .ok (.content tx.content)
      | (parent, parent_children) :: stack' =>
        parseLoop fuel rest ((parent, parent_children ++ [SnaxItem.content tx.content]) :: stack')

/-- `parse` from src/src/lib.rs: run the loop on the whole input with an
empty tag stack. -/
def parse (input_stream : List TokenTree) : ParseOutcome :=
  parseLoop (input_stream.length + 1) input_stream []

/-- The attribute loop consumes at least one raw token on success (it always
consumes its terminating delimiter). -/
theorem parseAttributes_consumes :
    ∀ (input : List TokenTree) (acc : List SnaxAttribute)
      (r : List SnaxAttribute × Bool) (rest : List TokenTree),
      parseAttributes input acc = .ok (r, rest) → rest.length < input.length := by
  intro input acc
  induction input, acc using parseAttributes.induct with
  | case6 n acc joint rest2 s ih =>
    intro r rest h
    simp only [parseAttributes] at h
    have := ih r rest h
    simp only [List.length_cons]
    omega
  | case7 n acc joint rest2 ts ih =>
    intro r rest h
    simp only [parseAttributes] at h
    have := ih r rest h
    simp only [List.length_cons]
    omega
  | _ =>
    intro r rest h
    simp_all [parseAttributes]
    try omega

/-- The tag-body recognizer consumes at least one raw token on success. -/
theorem parseTagBody_consumes :
    ∀ (input : List TokenTree) (tok : HtmlToken) (rest : List TokenTree),
      parseTagBody input = .ok (tok, rest) → rest.length < input.length := by
  intro input tok rest h
  unfold parseTagBody at h
  split at h
  · simp at h
  · split at h
    all_goals simp_all
    all_goals omega
  · cases hat : parseAttributes ‹List TokenTree› [] with
    | error e => rw [hat] at h; simp at h
    | ok pr =>
      obtain ⟨⟨attrs, sc⟩, rest2⟩ := pr
      have hlt := parseAttributes_consumes _ [] (attrs, sc) rest2 hat
      rw [hat] at h
      cases sc <;> simp_all <;> omega
  · simp at h

/-- Every successful `parse_html_token` call consumes at least one raw token:
the cursor strictly advances. -/
theorem parse_html_token_consumes :
    ∀ (input : List TokenTree) (tok : HtmlToken) (rest : List TokenTree),
      parse_html_token input = .ok (tok, rest) → rest.length < input.length := by
  intro input tok rest h
  cases input with
  | nil => simp [parse_html_token] at h
  | cons t r1 =>
    simp only [parse_html_token] at h
    by_cases hts : isTagStart t
    · rw [if_pos hts] at h
      have := parseTagBody_consumes r1 tok rest h
      simp only [List.length_cons]
      omega
    · rw [if_neg hts] at h
      simp only [Except.ok.injEq, Prod.mk.injEq] at h
      obtain ⟨-, h2⟩ := h
      subst h2
      simp only [List.length_cons]
      omega

/-- Any fuel exceeding the input length gives the loop the same behaviour:
each iteration strictly shortens the remaining input, so the fuel of `parse`
(`input.length + 1`) is never exhausted and the embedding is faithful to the
unbounded Rust `loop`. -/
theorem parseLoop_fuel_irrelevant :
    ∀ (fa : Nat) (input : List TokenTree) (stack : List (OpenToken × List SnaxItem)) (fb : Nat),
      input.length < fa → input.length < fb →
      parseLoop fa input stack = parseLoop fb input stack := by
  intro fa
  induction fa with
  | zero => intro input stack fb ha _; exact absurd ha (Nat.not_lt_zero _)
  | succ n ih =>
    intro input stack fb ha hb
    cases fb with
    | zero => exact absurd hb (Nat.not_lt_zero _)
    | succ m =>
      simp only [parseLoop]
      cases hpt : parse_html_token input with
      | error e => rfl
      | ok pr =>
        obtain ⟨tok, rest⟩ := pr
        have hlen := parse_html_token_consumes input tok rest hpt
        cases tok with
        | openTag t => exact ih rest _ m (by omega) (by omega)
        | closeTag c =>
          cases stack with
          | nil => rfl
          | cons fr stack' =>
            obtain ⟨ot, children⟩ := fr
            cases ot with
            | tag opening =>
              by_cases hn : opening.name = c.name
              · dsimp only
                rw [if_pos hn, if_pos hn]
                cases stack' with
                | nil => rfl
                | cons parent stack2 =>
                  obtain ⟨pt, pc⟩ := parent
                  exact ih rest _ m (by omega) (by omega)
              · dsimp only
                rw [if_neg hn, if_neg hn]
        | selfClosingTag s =>
          cases stack with
          | nil => rfl
          | cons parent stack' =>
            obtain ⟨pt, pc⟩ := parent
            exact ih rest _ m (by omega) (by omega)
        | textish tx =>
          cases stack with
          | nil => rfl
          | cons parent stack' =>
            obtain ⟨pt, pc⟩ := parent
            exact ih rest _ m (by omega) (by omega)



/-- A root-sealing configuration of the parse loop: the next markup token,
together with the current tag stack, completes the single top-level item — a
top-level Content or SelfClosingTag (empty stack), or a CloseTag whose name
matches the only open frame. -/
def rootSealing : HtmlToken → List (OpenToken × List SnaxItem) → Prop
  | .closeTag c, [(OpenToken.tag o, _)] => o.name = c.name
  | .selfClosingTag _, [] => True
  | .textish _, [] => True
  | _, _ => False

/-- C2: whenever the next markup token seals the root item (a CloseTag whose
close empties the stack, a top-level SelfClosingTag, or a top-level Content
token) and a raw token `t` remains on the cursor afterwards, the loop — hence
`parse`, which runs it with `input.length + 1` fuel — fails with
`UnexpectedToken t`; only one top-level item is ever produced (the outcome
carries a single `SnaxItem`). -/
theorem parse_leftover_token_after_root_errors
    (fuel : Nat) (input rest more : List TokenTree) (t : TokenTree)
    (stack : List (OpenToken × List SnaxItem)) (tok : HtmlToken)
    (htok : parse_html_token input = .ok (tok, rest))
    (hrest : rest = t :: more)
    (hroot : rootSealing tok stack) :
    parseLoop (fuel + 1) input stack = ParseOutcome.error (ParseError.unexpectedToken t) := by
  subst hrest
  simp only [parseLoop]
  rw [htok]
  cases tok with
  | openTag o => simp [rootSealing] at hroot
  | closeTag c =>
    cases stack with
    | nil => simp [rootSealing] at hroot
    | cons fr stack' =>
      obtain ⟨ot, children⟩ := fr
      cases ot with
      | tag o =>
        cases stack' with
        | nil =>
          simp only [rootSealing] at hroot
          dsimp only
          rw [if_pos hroot]
          rfl
        | cons fr2 stack2 => simp [rootSealing] at hroot
  | selfClosingTag s =>
    cases stack with
    | nil => rfl
    | cons fr stack' => simp [rootSealing] at hroot
  | textish tx =>
    cases stack with
    | nil => rfl
    | cons fr stack' => simp [rootSealing] at hroot

/-- Witness for C2: `<div />` followed by the leftover literal `"x"` fails
with `UnexpectedToken "x"`. -/
theorem parse_leftover_token_after_root_errors_witness :
    parse_html_token [TokenTree.punct '<' false, TokenTree.ident "div",
        TokenTree.punct '/' false, TokenTree.punct '>' false, TokenTree.literal "x"]
      = Except.ok (HtmlToken.selfClosingTag ⟨"div", []⟩, [TokenTree.literal "x"]) ∧
    rootSealing (HtmlToken.selfClosingTag ⟨"div", []⟩) [] ∧
    parseLoop 5 [TokenTree.punct '<' false, TokenTree.ident "div",
        TokenTree.punct '/' false, TokenTree.punct '>' false, TokenTree.literal "x"] []
      = ParseOutcome.error (ParseError.unexpectedToken (TokenTree.literal "x")) :=
  ⟨rfl, trivial,
    parse_leftover_token_after_root_errors 4
      [TokenTree.punct '<' false, TokenTree.ident "div", TokenTree.punct '/' false,
        TokenTree.punct '>' false, TokenTree.literal "x"]
      [TokenTree.literal "x"] [] (TokenTree.literal "x") []
      (HtmlToken.selfClosingTag ⟨"div", []⟩) rfl rfl trivial⟩

/-- C3: if the markup-token sequence yields a CloseTag while the open-tag
stack is still empty, `parse` fails with `UnexpectedItem` carrying that
CloseTag markup token (the `.ok_or_else` on the `pop` in lib.rs). -/
theorem parse_closeTag_on_empty_stack_unexpectedItem
    (input rest : List TokenTree) (c : HtmlCloseToken)
    (h : parse_html_token input = .ok (.closeTag c, rest)) :
    parse input = ParseOutcome.error (ParseError.unexpectedItem (HtmlToken.closeTag c)) := by
  simp only [parse, parseLoop]
  rw [h]

/-- Witness for C3: the lone `</div>` fails with
`UnexpectedItem (CloseTag div)`. -/
theorem parse_closeTag_on_empty_stack_unexpectedItem_witness :
    parse_html_token [TokenTree.punct '<' false, TokenTree.punct '/' false,
        TokenTree.ident "div", TokenTree.punct '>' false]
      = Except.ok (HtmlToken.closeTag ⟨"div"⟩, []) ∧
    parse [TokenTree.punct '<' false, TokenTree.punct '/' false,
        TokenTree.ident "div", TokenTree.punct '>' false]
      = ParseOutcome.error (ParseError.unexpectedItem (HtmlToken.closeTag ⟨"div"⟩)) :=
  ⟨rfl, parse_closeTag_on_empty_stack_unexpectedItem
    [TokenTree.punct '<' false, TokenTree.punct '/' false,
      TokenTree.ident "div", TokenTree.punct '>' false] [] ⟨"div"⟩ rfl⟩

theorem parseLoop_unexpectedItem_closeTag :
    ∀ (fuel : Nat) (input : List TokenTree) (stack : List (OpenToken × List SnaxItem))
      (t : HtmlToken),
      parseLoop fuel input stack = .error (.unexpectedItem t) →
      ∃ c, t = HtmlToken.closeTag c := by
  intro fuel
  induction fuel with
  | zero => intro input stack t h; simp [parseLoop] at h
  | succ n ih =>
    intro input stack t h
    simp only [parseLoop] at h
    cases hpt : parse_html_token input with
    | error e =>
      rw [hpt] at h
      cases e <;> simp [ParseError.ofTokenize] at h
    | ok pr =>
      obtain ⟨tok, rest⟩ := pr
      rw [hpt] at h
      cases tok with
      | openTag o => exact ih rest _ t h
      | closeTag c =>
        cases stack with
        | nil =>
          dsimp only at h
          simp only [ParseOutcome.error.injEq, ParseError.unexpectedItem.injEq] at h
          exact ⟨c, h.symm⟩
        | cons fr stack' =>
          obtain ⟨ot, children⟩ := fr
          cases ot with
          | tag o =>
            dsimp only at h
            by_cases hn : o.name = c.name
            · rw [if_pos hn] at h
              cases stack' with
              | nil =>
                cases rest with
                | nil => simp [expect_end] at h
                | cons r rs => simp [expect_end] at h
              | cons fr2 stack2 =>
                obtain ⟨pt, pc⟩ := fr2
                exact ih rest _ t h
            · rw [if_neg hn] at h
              simp at h
      | selfClosingTag sct =>
        cases stack with
        | nil =>
          cases rest with
          | nil => simp [expect_end] at h
          | cons r rs => simp [expect_end] at h
        | cons fr stack' =>
          obtain ⟨pt, pc⟩ := fr
          exact ih rest _ t h
      | textish tx =>
        cases stack with
        | nil =>
          cases rest with
          | nil => simp [expect_end] at h
          | cons r rs => simp [expect_end] at h
        | cons fr stack' =>
          obtain ⟨pt, pc⟩ := fr
          exact ih rest _ t h

/-- C10: if `parse` returns the error `UnexpectedItem t`, then `t` is a
CloseTag markup token: the only site constructing `UnexpectedItem` is the
CloseTag-on-empty-stack branch of the loop. -/
theorem parse_unexpectedItem_is_closeTag
    (input : List TokenTree) (t : HtmlToken)
    (h : parse input = .error (.unexpectedItem t)) :
    ∃ c, t = HtmlToken.closeTag c :=
  parseLoop_unexpectedItem_closeTag (input.length + 1) input [] t h

/-- Witness for C10: the lone `</div>` produces `UnexpectedItem` wrapping a
CloseTag. -/
theorem parse_unexpectedItem_is_closeTag_witness :
    parse [TokenTree.punct '<' false, TokenTree.punct '/' false,
        TokenTree.ident "div", TokenTree.punct '>' false]
      = ParseOutcome.error (ParseError.unexpectedItem (HtmlToken.closeTag ⟨"div"⟩)) ∧
    ∃ c, HtmlToken.closeTag ⟨"div"⟩ = HtmlToken.closeTag c :=
  ⟨rfl, parse_unexpectedItem_is_closeTag
    [TokenTree.punct '<' false, TokenTree.punct '/' false,
      TokenTree.ident "div", TokenTree.punct '>' false]
    (HtmlToken.closeTag ⟨"div"⟩) rfl⟩


/-- C1 (divergence exhibit): on the token stream of `<div></span>` — a
CloseTag whose name differs from the matching open tag on the stack — `parse`
hits the `assert_eq!(opening_tag.name, closing_tag.name)` in lib.rs and
aborts (`panicked`), rather than returning a `ParseError` through the normal
error channel as the claim states. -/
theorem parse_mismatched_close_name_panics :
    parse [TokenTree.punct '<' false, TokenTree.ident "div", TokenTree.punct '>' false,
        TokenTree.punct '<' false, TokenTree.punct '/' false, TokenTree.ident "span",
        TokenTree.punct '>' false]
      = ParseOutcome.panicked := rfl

/-- C4: the token stream of `<div><span></span></div>` parses to a Tag named
`div` with no attributes whose children are exactly one Item, a Tag named
`span` with no attributes and no children: the nested tag is sealed on its
CloseTag and appended to its parent frame's children. -/
theorem parse_nested_div_span :
    parse [TokenTree.punct '<' false, TokenTree.ident "div", TokenTree.punct '>' false,
        TokenTree.punct '<' false, TokenTree.ident "span", TokenTree.punct '>' false,
        TokenTree.punct '<' false, TokenTree.punct '/' false, TokenTree.ident "span",
        TokenTree.punct '>' false,
        TokenTree.punct '<' false, TokenTree.punct '/' false, TokenTree.ident "div",
        TokenTree.punct '>' false]
      = ParseOutcome.ok (SnaxItem.tag (SnaxTag.mk "div" []
          [SnaxItem.tag (SnaxTag.mk "span" [] [])])) := rfl

/-- Is this token a Literal or a brace-delimited Group — the two shapes of
input singled out by claim C5? -/
def isLiteralOrBraceGroup : TokenTree → Bool
  | .literal _ => true
  | .group .brace _ => true
  | _ => false

/-- C5: an input of exactly one literal token or exactly one brace-delimited
group token parses to `Content` wrapping that exact token, unchanged and
uninterpreted. -/
theorem parse_single_content_token (t : TokenTree)
    (h : isLiteralOrBraceGroup t = true) :
    parse [t] = ParseOutcome.ok (SnaxItem.content t) := by
  cases t with
  | ident n => simp [isLiteralOrBraceGroup] at h
  | literal s => rfl
  | punct c j => simp [isLiteralOrBraceGroup] at h
  | group d ts =>
    cases d with
    | brace => rfl
    | parenthesis => simp [isLiteralOrBraceGroup] at h
    | bracket => simp [isLiteralOrBraceGroup] at h
    | none => simp [isLiteralOrBraceGroup] at h

/-- Witness for C5: the lone literal `"hello"` parses to `Content "hello"`. -/
theorem parse_single_content_token_witness :
    isLiteralOrBraceGroup (TokenTree.literal "hello") = true ∧
    parse [TokenTree.literal "hello"]
      = ParseOutcome.ok (SnaxItem.content (TokenTree.literal "hello")) :=
  ⟨rfl, parse_single_content_token (TokenTree.literal "hello") rfl⟩

/-- C6: the empty input token sequence makes `parse` fail with
`UnexpectedEnd` (the tokenizer's end-of-stream surfaces as
`TokenizeError::UnexpectedEnd`, which `From` maps to
`ParseError::UnexpectedEnd`). -/
theorem parse_empty_input_unexpectedEnd :
    parse [] = ParseOutcome.error ParseError.unexpectedEnd := rfl

/-- C7: attributes are kept in source order and duplicates are retained:
`<div foo="bar" baz="qux"></div>` yields exactly `[foo="bar", baz="qux"]` in
that order, and `<div foo="bar" foo="qux"></div>` keeps both occurrences of
`foo` in source order — the open tag's attribute list is carried verbatim
into the resulting Tag. -/
theorem parse_attributes_in_source_order :
    parse [TokenTree.punct '<' false, TokenTree.ident "div",
        TokenTree.ident "foo", TokenTree.punct '=' false, TokenTree.literal "bar",
        TokenTree.ident "baz", TokenTree.punct '=' false, TokenTree.literal "qux",
        TokenTree.punct '>' false,
        TokenTree.punct '<' false, TokenTree.punct '/' false, TokenTree.ident "div",
        TokenTree.punct '>' false]
      = ParseOutcome.ok (SnaxItem.tag (SnaxTag.mk "div"
          [SnaxAttribute.simple "foo" (TokenTree.literal "bar"),
           SnaxAttribute.simple "baz" (TokenTree.literal "qux")] [])) ∧
    parse [TokenTree.punct '<' false, TokenTree.ident "div",
        TokenTree.ident "foo", TokenTree.punct '=' false, TokenTree.literal "bar",
        TokenTree.ident "foo", TokenTree.punct '=' false, TokenTree.literal "qux",
        TokenTree.punct '>' false,
        TokenTree.punct '<' false, TokenTree.punct '/' false, TokenTree.ident "div",
        TokenTree.punct '>' false]
      = ParseOutcome.ok (SnaxItem.tag (SnaxTag.mk "div"
          [SnaxAttribute.simple "foo" (TokenTree.literal "bar"),
           SnaxAttribute.simple "foo" (TokenTree.literal "qux")] [])) :=
  ⟨rfl, rfl⟩

/-- C8: two adjacent top-level non-tag tokens are two separate Content root
candidates, never merged: the first becomes the root Content item and the
exhaustion-after-root check then fails with `UnexpectedToken` carrying the
second token. -/
theorem parse_two_adjacent_nontag_tokens_fail (t1 t2 : TokenTree)
    (h1 : isTagStart t1 = false) (_h2 : isTagStart t2 = false) :
    parse [t1, t2] = ParseOutcome.error (ParseError.unexpectedToken t2) := by
  simp only [parse, List.length_cons, List.length_nil, parseLoop, parse_html_token]
  rw [h1]
  rfl

/-- Witness for C8: the two adjacent literals `"a"` and `"b"` fail with
`UnexpectedToken "b"`. -/
theorem parse_two_adjacent_nontag_tokens_fail_witness :
    isTagStart (TokenTree.literal "a") = false ∧
    isTagStart (TokenTree.literal "b") = false ∧
    parse [TokenTree.literal "a", TokenTree.literal "b"]
      = ParseOutcome.error (ParseError.unexpectedToken (TokenTree.literal "b")) :=
  ⟨rfl, rfl, parse_two_adjacent_nontag_tokens_fail
    (TokenTree.literal "a") (TokenTree.literal "b") rfl rfl⟩

/-- C9: `parse` is deterministic: it is a pure function of the input token
sequence, so equal inputs give equal outcomes.  The embedding is state-free by
construction, mirroring the source, whose only mutable state is the local
iterator cursor and the local `tag_stack`. -/
theorem parse_deterministic (i1 i2 : List TokenTree) (h : i1 = i2) :
    parse i1 = parse i2 := by rw [h]

/-- Witness for C9: two invocations on the literal `"x"` agree. -/
theorem parse_deterministic_witness :
    ([TokenTree.literal "x"] : List TokenTree) = [TokenTree.literal "x"] ∧
    parse [TokenTree.literal "x"] = parse [TokenTree.literal "x"] :=
  ⟨rfl, parse_deterministic [TokenTree.literal "x"] [TokenTree.literal "x"] rfl⟩

end RustJsx
